import Mathlib

/-!
Shallow embedding of the safety layer of the artichoke backend:
`src/artichoke-backend/src/value.rs` (value handle, protected call dispatch)
and `src/artichoke-backend/src/extn/core/regexp/case_compare.rs` (the global
capture-state manager for the pattern-match operation).

Conventions of the embedding:
- the VM (`sys` crate) is an opaque external collaborator; what the host code
  reads from a raw VM value is its runtime type tag, so `MrbValue` is modelled
  as a tag plus an identity;
- machine integers are `Nat`/`Int` with explicit range checks where the source
  performs a fallible conversion (`Int::try_from`);
- fallible host code returns `Except`/`Option`; a Rust panic is modelled as
  `Option.none` at the point where the source aborts;
- code paths that rely on scope-exit cleanup or on the call trampoline emit an
  explicit trace (savepoint restores, box drops, forwarded calls) so ordering
  and exactly-once properties are statable.
-/

namespace Artichoke

/-- Runtime type tags of VM values (`crate::types::Ruby`, outside `src/`).
Modelled from the spec: a type tag classifying the underlying VM value
(boolean, nil, integer, string, foreign-data, unreachable, object).  The two
tags `value.rs` inspects are `data` (foreign-data) and `unreachable` (the
VM-internal sentinel `MRB_TT_UNDEF`). -/
inductive Ruby where
  | bool
  | nil
  | fixnum
  | string
  | data
  | unreachable
  | object
  deriving DecidableEq

/-- A raw `sys::mrb_value`.  Opaque to the host except for its runtime type
tag (read via `types::ruby_from_mrb_value`); `id` stands for the rest of the
word so distinct raw values stay distinct. -/
structure MrbValue where
  tag : Ruby
  id : Nat
  deriving DecidableEq

/-- Modelled from the spec: `types::ruby_from_mrb_value` (outside `src/`)
reads the runtime type tag of a raw VM value. -/
def ruby_from_mrb_value (v : MrbValue) : Ruby :=
  v.tag

/-- Errors of `crate::ArtichokeError` used by `value.rs`: `TooManyArgs`,
`Exec`, `UnreachableValue`, plus a conversion-failure variant standing for the
errors a `TryConvert` implementation may return. -/
inductive ArtichokeError where
  | tooManyArgs (given max : Nat)
  | exec (description : String)
  | unreachableValue
  | convertError (message : String)
  deriving DecidableEq

/-- `crate::exception::LastError`, as consumed by `funcall` (the type itself
lives outside `src/`; its three variants are matched in `value.rs` lines
211-228): an extracted exception description, a failure to extract the
exception, or no recorded error. -/
inductive LastError where
  | some_ (exception : String)
  | unableToExtract (err : ArtichokeError)
  | none_
  deriving DecidableEq

/-- `Value`: wrapper around a raw VM value plus a handle to the owning
interpreter (`Artichoke` is a reference-counted handle; its identity is
modelled as a `Nat`, and cloning the handle yields the same identity). -/
structure Value where
  interp : Nat
  value : MrbValue
  deriving DecidableEq

/-- `Value::inner`. -/
def Value.inner (v : Value) : MrbValue :=
  v.value

/-- `Value::ruby_type`. -/
def Value.ruby_type (v : Value) : Ruby :=
  ruby_from_mrb_value v.value

/-- `Value::is_unreachable`: true iff the type tag is the VM-internal
unreachable sentinel. -/
def Value.is_unreachable (v : Value) : Bool :=
  v.ruby_type = Ruby.unreachable

/-- `impl Clone for Value` (value.rs lines 292-302): cloning a value whose
type tag is `Ruby::Data` panics; the panic is modelled as `none`.  Every
other tag clones the interpreter handle and copies the raw VM value. -/
def Value.clone (v : Value) : Option Value :=
  if v.ruby_type = Ruby.data then
    none
  else
    some { interp := v.interp, value := v.value }

/-- Max argument count for function calls including initialize and yield
(value.rs line 17). -/
def MRB_FUNCALL_ARGC_MAX : Nat := 16

/-- The `Protect` request record (value.rs lines 22-28): target value, interned
method symbol, argument slice, optional block.  `Copy` and destructor-free in
the source because the forwarded call can unwind with `longjmp`. -/
structure Protect where
  slf : MrbValue
  func_sym : Nat
  args : List MrbValue
  block : Option MrbValue
  deriving DecidableEq

/-- `Protect::new` (value.rs lines 31-38). -/
def Protect.new (slf : MrbValue) (func_sym : Nat) (args : List MrbValue) : Protect :=
  { slf := slf, func_sym := func_sym, args := args, block := none }

/-- `Protect::with_block` (value.rs lines 40-47). -/
def Protect.with_block (p : Protect) (block : MrbValue) : Protect :=
  { slf := p.slf, func_sym := p.func_sym, args := p.args, block := some block }

/-- `i64::MAX`, the upper bound of `crate::types::Int`. -/
def I64_MAX : Int := 9223372036854775807

/-- `Int::try_from` on a `usize` length (value.rs line 64): succeeds exactly
when the length fits in `i64`. -/
def intTryFrom (n : Nat) : Option Int :=
  if (n : Int) ≤ I64_MAX then some (n : Int) else none

/-- Heap and call events emitted by the trampoline `Protect::run`, in source
order: the box holding the request record is reconstructed from the opaque
pointer, the box is dropped (freed), and the VM call is forwarded. -/
inductive RunEvent where
  | reconstructBox
  | dropBox
  | forwardCall (withBlock : Bool)
  deriving DecidableEq

/-- The VM call forwarded by the trampoline (value.rs lines 70-74): which of
`mrb_funcall_with_block` / `mrb_funcall_argv` is invoked and the arguments it
receives. -/
structure ForwardedCall where
  withBlock : Bool
  slf : MrbValue
  func_sym : Nat
  argslen : Int
  args : List MrbValue
  block : Option MrbValue
  deriving DecidableEq

/-- `Protect::run` (value.rs lines 49-75): reconstruct the boxed request
record from the opaque pointer, pull all of the fields out of the box, compute
the argument count via `Int::try_from(args.len()).unwrap_or_default()`, drop
the box, and only then forward the call (`mrb_funcall_with_block` when a block
is present, `mrb_funcall_argv` otherwise).  The event list records the heap
actions and the call in source order; the `ForwardedCall` records the values
the VM call receives. -/
def Protect.run (p : Protect) : List RunEvent × ForwardedCall :=
  let slf := p.slf
  let func_sym := p.func_sym
  let args := p.args
  let argslen := (intTryFrom args.length).getD 0
  let block := p.block
  match block with
  | some b =>
      ([RunEvent.reconstructBox, RunEvent.dropBox, RunEvent.forwardCall true],
       { withBlock := true, slf := slf, func_sym := func_sym, argslen := argslen,
         args := args, block := some b })
  | none =>
      ([RunEvent.reconstructBox, RunEvent.dropBox, RunEvent.forwardCall false],
       { withBlock := false, slf := slf, func_sym := func_sym, argslen := argslen,
         args := args, block := none })

/-- The behavior of the VM during the protected call, which is external to the
host: the raw value `mrb_protect` returns and what
`ExceptionHandler::last_error` reports afterwards. -/
structure VmOutcome where
  ret : MrbValue
  lastError : LastError

/-- Observable bookkeeping of one `funcall` invocation: whether the
protected-call primitive was invoked, the request record built for it (if
any), and how many arena savepoints were created/restored.  Modelled from the
spec for the restore count: the `_arena` guard created at value.rs line 169 is
an RAII guard (`crate::gc::ArenaIndex`, outside `src/`) whose scope-exit drop
restores the savepoint on every path out of the function. -/
structure FuncallTrace where
  vmCallAttempted : Bool
  request : Option Protect
  arenaSavepointsCreated : Nat
  arenaRestores : Nat
  deriving DecidableEq

/-- `Value::funcall` (value.rs lines 152-230).  Parameters that stand for
external collaborators: `intern` is the interpreter symbol table
(`sym_intern`, spec section 6: string to stable integer symbol), `vm` is the
VM outcome of the protected call, and `tryConvert` is the `TryConvert`
implementation for the result type `T`.

The body follows the source: take an arena savepoint; map the arguments to
their raw values; fail fast with `TooManyArgs` when more than
`MRB_FUNCALL_ARGC_MAX` arguments are given, without invoking the VM; otherwise
build the `Protect` request (adding the block if present), run the protected
call, and classify the outcome by matching on `last_error()`:
an extracted exception becomes `ArtichokeError::Exec`, an extraction failure
is propagated as-is, an unreachable returned value becomes
`ArtichokeError::UnreachableValue`, and otherwise the returned value is
converted via `tryConvert`.  Every path restores the savepoint once. -/
def Value.funcall {T : Type} (self : Value) (intern : String → Nat) (func : String)
    (args : List Value) (block : Option Value) (vm : VmOutcome)
    (tryConvert : Value → Except ArtichokeError T) :
    Except ArtichokeError T × FuncallTrace :=
  let innerArgs := args.map Value.inner
  if innerArgs.length > MRB_FUNCALL_ARGC_MAX then
    (Except.error (ArtichokeError.tooManyArgs innerArgs.length MRB_FUNCALL_ARGC_MAX),
     { vmCallAttempted := false, request := none,
       arenaSavepointsCreated := 1, arenaRestores := 1 })
  else
    let protect0 := Protect.new self.inner (intern func) innerArgs
    let protect :=
      match block with
      | some b => protect0.with_block b.inner
      | none => protect0
    let value : Value := { interp := self.interp, value := vm.ret }
    let result : Except ArtichokeError T :=
      match vm.lastError with
      | LastError.some_ exception => Except.error (ArtichokeError.exec exception)
      | LastError.unableToExtract err => Except.error err
      | LastError.none_ =>
          if value.is_unreachable then
            Except.error ArtichokeError.unreachableValue
          else
            tryConvert value
    (result,
     { vmCallAttempted := true, request := some protect,
       arenaSavepointsCreated := 1, arenaRestores := 1 })

/-- Interpreter global variables touched by `Regexp` case-compare.  The source
addresses them by interned symbol of their name; interning is the VM primitive
of spec section 6 (string to stable integer symbol), so distinct names yield
distinct symbols, which the constructors model directly: the whole-match
global (name `$&`), the numbered capture globals (`$1`, `$2`, ...), the
last-match global (`$~`), and the pre-match and post-match substring globals. -/
inductive GlobalName where
  | wholeMatch
  | numbered (n : Nat)
  | lastMatch
  | preMatch
  | postMatch
  deriving DecidableEq

/-- The match-result object (`crate::extn::core::matchdata::MatchData`,
outside `src/`).  Modelled from the spec: it owns a copy of the candidate
text, holds the cloned pattern descriptor (here its identity), and records a
start/end region. -/
structure MatchData where
  string : String
  regexp : Nat
  start_pos : Nat
  end_pos : Nat
  deriving DecidableEq

/-- Modelled from the spec: `MatchData::new(string, regexp, start, end)`
(outside `src/`) stores its arguments. -/
def MatchData.new (string : String) (regexp : Nat) (start_pos end_pos : Nat) :
    MatchData :=
  { string := string, regexp := regexp, start_pos := start_pos, end_pos := end_pos }

/-- VM values as seen by the case-compare method: nil, a string, a boolean, or
a match-result object.  Candidate text is modelled as a sequence of units;
positions and lengths count units (bytes in the source). -/
inductive RV where
  | nil
  | str (s : String)
  | bool (b : Bool)
  | matchdata (m : MatchData)
  deriving DecidableEq

/-- `mrb_sys_value_is_nil`. -/
def RV.isNil : RV → Bool
  | RV.nil => true
  | _ => false

/-- Modelled from the spec: the total conversion `interp.convert` on an
optional string (section 4.2) — `None` becomes nil, `Some s` becomes a VM
string. -/
def convertOptStr : Option String → RV
  | none => RV.nil
  | some s => RV.str s

/-- The result of a successful run of the Onig pattern engine (external
collaborator, spec section 6): for each group the matched substring if the
group participated, and the unit-offset span of group 0 when defined.
`groups.length` is `captures.len()`. -/
structure Captures where
  groups : List (Option String)
  pos0 : Option (Nat × Nat)

/-- `captures.len()`. -/
def Captures.len (c : Captures) : Nat :=
  c.groups.length

/-- `captures.at(group)`: the text of the group, `none` when the group did not
participate or the index is at or beyond `len()`. -/
def Captures.atGroup (c : Captures) (group : Nat) : Option String :=
  (c.groups.get? group).getD none

/-- `crate::extn::core::regexp::Backend` (outside `src/`; matched in
case_compare.rs lines 60-104): an Onig-backed regex — modelled as its
`captures` operation, from candidate string to optional capture set — or the
unimplemented Rust backend. -/
inductive Backend where
  | onig (captures : String → Option Captures)
  | rust

/-- The `Regexp` data reached through `Regexp::try_from_ruby` (the struct is
outside `src/`; case_compare.rs reads `borrow.regex` and passes
`borrow.clone()` to `MatchData::new`): the optional backend and the identity
of the pattern descriptor that a clone shares. -/
structure Regexp where
  regex : Option Backend
  descriptor : Nat

/-- The interpreter state the case-compare method reads and writes: the global
variables and the capture-global high-water mark
(`num_set_regexp_capture_globals` on the interpreter state, spec section 3). -/
structure InterpState where
  globals : GlobalName → RV
  num_set_regexp_capture_globals : Nat

/-- `mrb_gv_set` (VM primitive): set one global variable. -/
def gv_set (st : InterpState) (name : GlobalName) (v : RV) : InterpState :=
  { st with globals := fun n => if n = name then v else st.globals n }

/-- The symbol a capture group is bound to (case_compare.rs lines 69-73):
group 0 goes to the whole-match global, group `g ≥ 1` to the numbered global
`$g`. -/
def captureSym (group : Nat) : GlobalName :=
  if group = 0 then GlobalName.wholeMatch else GlobalName.numbered group

/-- The capture-global loop of case_compare.rs lines 68-79: for each `group`
in `0..n`, set the global `captureSym group` to the converted text of that
group. -/
def setCaptureGlobals (caps : Captures) (st : InterpState) (n : Nat) : InterpState :=
  (List.range n).foldl
    (fun acc group => gv_set acc (captureSym group) (convertOptStr (caps.atGroup group)))
    st

/-- `crate::extn::core::regexp::case_compare::Error`. -/
inductive CCError where
  | fatal
  | noImplicitConversionToString
  deriving DecidableEq

/-- `crate::extn::core::regexp::case_compare::Args`: the optional candidate
string (already converted; a conversion failure is reported by
`Args::extract`, which is upstream of `method`). -/
structure Args where
  string : Option String

/-- `case_compare::method` (case_compare.rs lines 43-114).  `tryFromRuby`
stands for the result of `Regexp::try_from_ruby` on the receiver: `none`
models its failure (reported as `Error::Fatal`).  The outer `Option` models
the `unimplemented!` panic on the Rust backend; every non-panicking outcome is
`some`.

The body follows the source: fail fatally when the receiver is not a regexp;
with no candidate, set the last-match global to nil and report `false`; fail
fatally when the regexp has no backend; on the Onig backend run the engine;
on a match set capture globals for `0..max(prev, len)`, record `len` as the
new high-water mark, set the pre-match and post-match substring globals when group 0
has a position, and build the match-result object over the whole candidate;
on no match set the pre-match and post-match globals to nil.  Finally bind the
match-result (or nil) to the last-match global and report whether it is
non-nil. -/
def method (tryFromRuby : Option Regexp) (args : Args) (st : InterpState) :
    Option (Except CCError (RV × InterpState)) :=
  match tryFromRuby with
  | none => some (Except.error CCError.fatal)
  | some data =>
    match args.string with
    | none =>
        let st := gv_set st GlobalName.lastMatch RV.nil
        some (Except.ok (RV.bool false, st))
    | some string =>
      match data.regex with
      | none => some (Except.error CCError.fatal)
      | some (Backend.onig captures) =>
        match captures string with
        | some caps =>
            let num_regexp_globals_to_set :=
              max st.num_set_regexp_capture_globals caps.len
            let st := setCaptureGlobals caps st num_regexp_globals_to_set
            let st := { st with num_set_regexp_capture_globals := caps.len }
            let st :=
              match caps.pos0 with
              | some match_pos =>
                  let pre_match := string.take match_pos.1
                  let post_match := string.drop match_pos.2
                  let st := gv_set st GlobalName.preMatch (RV.str pre_match)
                  gv_set st GlobalName.postMatch (RV.str post_match)
              | none => st
            let matchdata :=
              RV.matchdata (MatchData.new string data.descriptor 0 string.length)
            let st := gv_set st GlobalName.lastMatch matchdata
            some (Except.ok (RV.bool (!matchdata.isNil), st))
        | none =>
            let st := gv_set st GlobalName.preMatch RV.nil
            let st := gv_set st GlobalName.postMatch RV.nil
            let matchdata := RV.nil
            let st := gv_set st GlobalName.lastMatch matchdata
            some (Except.ok (RV.bool (!matchdata.isNil), st))
      | some Backend.rust => none

/-- Claim C1: for every invocation of funcall that reaches the protected-call
primitive (argument count within bound), the outcome is classified exactly
once and exhaustively: a recorded exception yields an error carrying the
extracted description; a failed extraction propagates the extraction error;
otherwise an unreachable-tagged returned value yields the UnreachableValue
error with no conversion attempted; otherwise the result is the fallible
conversion of the returned value. -/
theorem funcall_outcome_classification {T : Type} (self : Value)
    (intern : String → Nat) (func : String) (args : List Value)
    (block : Option Value) (vm : VmOutcome)
    (tryConvert : Value → Except ArtichokeError T)
    (h : args.length ≤ MRB_FUNCALL_ARGC_MAX) :
    (∀ e, vm.lastError = LastError.some_ e →
      (Value.funcall self intern func args block vm tryConvert).1 =
        Except.error (ArtichokeError.exec e)) ∧
    (∀ err, vm.lastError = LastError.unableToExtract err →
      (Value.funcall self intern func args block vm tryConvert).1 =
        Except.error err) ∧
    (vm.lastError = LastError.none_ →
      (Value.mk self.interp vm.ret).is_unreachable = true →
      (Value.funcall self intern func args block vm tryConvert).1 =
        Except.error ArtichokeError.unreachableValue) ∧
    (vm.lastError = LastError.none_ →
      (Value.mk self.interp vm.ret).is_unreachable = false →
      (Value.funcall self intern func args block vm tryConvert).1 =
        tryConvert (Value.mk self.interp vm.ret)) ∧
    ((∃ e, vm.lastError = LastError.some_ e) ∨
      (∃ err, vm.lastError = LastError.unableToExtract err) ∨
      vm.lastError = LastError.none_) := by
  have hif : ¬ (MRB_FUNCALL_ARGC_MAX < args.length) := by omega
  refine ⟨?_, ?_, ?_, ?_, ?_⟩
  · intro e he
    simp [Value.funcall, hif, he]
  · intro err he
    simp [Value.funcall, hif, he]
  · intro he hu
    simp [Value.funcall, hif, he, hu]
  · intro he hu
    simp [Value.funcall, hif, he, hu]
  · cases hv : vm.lastError
    · exact Or.inl ⟨_, rfl⟩
    · exact Or.inr (Or.inl ⟨_, rfl⟩)
    · exact Or.inr (Or.inr rfl)

theorem funcall_outcome_classification_witness :
    ([(⟨0, ⟨Ruby.string, 1⟩⟩ : Value)] : List Value).length ≤ MRB_FUNCALL_ARGC_MAX ∧
    (Value.funcall (T := Bool) ⟨0, ⟨Ruby.nil, 0⟩⟩ (fun _ => 0) "inspect"
        [⟨0, ⟨Ruby.string, 1⟩⟩] none ⟨⟨Ruby.nil, 2⟩, LastError.some_ "boom"⟩
        (fun _ => Except.ok true)).1 = Except.error (ArtichokeError.exec "boom") :=
  ⟨by decide,
    (funcall_outcome_classification ⟨0, ⟨Ruby.nil, 0⟩⟩ (fun _ => 0) "inspect"
        [⟨0, ⟨Ruby.string, 1⟩⟩] none ⟨⟨Ruby.nil, 2⟩, LastError.some_ "boom"⟩
        (fun _ => Except.ok true) (by decide)).1 "boom" rfl⟩

/-- Claim C2: funcall with more than `MRB_FUNCALL_ARGC_MAX` (16) arguments
returns the TooManyArgs error carrying the given length and the maximum, and
the protected-call primitive is never invoked on that path. -/
theorem funcall_too_many_args {T : Type} (self : Value) (intern : String → Nat)
    (func : String) (args : List Value) (block : Option Value) (vm : VmOutcome)
    (tryConvert : Value → Except ArtichokeError T)
    (h : args.length > MRB_FUNCALL_ARGC_MAX) :
    (Value.funcall self intern func args block vm tryConvert).1 =
      Except.error (ArtichokeError.tooManyArgs args.length MRB_FUNCALL_ARGC_MAX) ∧
    (Value.funcall self intern func args block vm tryConvert).2.vmCallAttempted
      = false ∧
    (Value.funcall self intern func args block vm tryConvert).2.request = none ∧
    MRB_FUNCALL_ARGC_MAX = 16 := by
  have hif : MRB_FUNCALL_ARGC_MAX < args.length := h
  refine ⟨?_, ?_, ?_, rfl⟩ <;>
    simp [Value.funcall, hif]

theorem funcall_too_many_args_witness :
    (List.replicate 17 (⟨0, ⟨Ruby.nil, 0⟩⟩ : Value)).length > MRB_FUNCALL_ARGC_MAX ∧
    ((Value.funcall (T := Bool) ⟨0, ⟨Ruby.nil, 0⟩⟩ (fun _ => 0) "inspect"
        (List.replicate 17 ⟨0, ⟨Ruby.nil, 0⟩⟩) none ⟨⟨Ruby.nil, 0⟩, LastError.none_⟩
        (fun _ => Except.ok true)).1 =
      Except.error (ArtichokeError.tooManyArgs
        (List.replicate 17 (⟨0, ⟨Ruby.nil, 0⟩⟩ : Value)).length MRB_FUNCALL_ARGC_MAX) ∧
    (Value.funcall (T := Bool) ⟨0, ⟨Ruby.nil, 0⟩⟩ (fun _ => 0) "inspect"
        (List.replicate 17 ⟨0, ⟨Ruby.nil, 0⟩⟩) none ⟨⟨Ruby.nil, 0⟩, LastError.none_⟩
        (fun _ => Except.ok true)).2.vmCallAttempted = false ∧
    (Value.funcall (T := Bool) ⟨0, ⟨Ruby.nil, 0⟩⟩ (fun _ => 0) "inspect"
        (List.replicate 17 ⟨0, ⟨Ruby.nil, 0⟩⟩) none ⟨⟨Ruby.nil, 0⟩, LastError.none_⟩
        (fun _ => Except.ok true)).2.request = none ∧
    MRB_FUNCALL_ARGC_MAX = 16) :=
  ⟨by decide,
    funcall_too_many_args ⟨0, ⟨Ruby.nil, 0⟩⟩ (fun _ => 0) "inspect"
      (List.replicate 17 ⟨0, ⟨Ruby.nil, 0⟩⟩) none ⟨⟨Ruby.nil, 0⟩, LastError.none_⟩
      (fun _ => Except.ok true) (by decide)⟩

/-- Claim C3: in every execution of the protected-call trampoline, the boxed
request record is reconstructed, all of its fields reach the forwarded call
unchanged, and the box is dropped exactly once, strictly after reconstruction
and strictly before the forwarded VM call. -/
theorem protect_run_box_freed_before_call (p : Protect) :
    (Protect.run p).1.count RunEvent.dropBox = 1 ∧
    (Protect.run p).1.count (RunEvent.forwardCall p.block.isSome) = 1 ∧
    (Protect.run p).1.indexOf RunEvent.reconstructBox <
      (Protect.run p).1.indexOf RunEvent.dropBox ∧
    (Protect.run p).1.indexOf RunEvent.dropBox <
      (Protect.run p).1.indexOf (RunEvent.forwardCall p.block.isSome) ∧
    (Protect.run p).2.slf = p.slf ∧
    (Protect.run p).2.func_sym = p.func_sym ∧
    (Protect.run p).2.args = p.args ∧
    (Protect.run p).2.block = p.block ∧
    (Protect.run p).2.withBlock = p.block.isSome := by
  obtain ⟨slf, func_sym, args, block⟩ := p
  cases block <;>
    exact ⟨rfl, rfl, Nat.le.refl, Nat.le.refl, rfl, rfl, rfl, rfl, rfl⟩

/-- Claim C4: every invocation of funcall creates one arena savepoint and
restores it exactly once, on every exit path (the early TooManyArgs return and
every classification return). -/
theorem funcall_arena_restored_once {T : Type} (self : Value)
    (intern : String → Nat) (func : String) (args : List Value)
    (block : Option Value) (vm : VmOutcome)
    (tryConvert : Value → Except ArtichokeError T) :
    (Value.funcall self intern func args block vm
        tryConvert).2.arenaSavepointsCreated = 1 ∧
    (Value.funcall self intern func args block vm tryConvert).2.arenaRestores
      = 1 := by
  by_cases hif : MRB_FUNCALL_ARGC_MAX < args.length <;>
    simp [Value.funcall, hif]

/-- Claim C5: cloning a Value panics exactly on the foreign-data tag
(`Ruby::Data`); for every other tag the clone holds the same raw VM value and
a handle to the same interpreter. -/
theorem value_clone_panics_only_on_data (v : Value) :
    (v.ruby_type = Ruby.data → v.clone = none) ∧
    (v.ruby_type ≠ Ruby.data →
      v.clone = some { interp := v.interp, value := v.value }) := by
  constructor
  · intro h
    simp [Value.clone, h]
  · intro h
    simp [Value.clone, h]

theorem value_clone_panics_only_on_data_witness :
    (Value.mk 0 ⟨Ruby.data, 5⟩).ruby_type = Ruby.data ∧
    (Value.mk 0 ⟨Ruby.data, 5⟩).clone = none ∧
    (Value.mk 0 ⟨Ruby.fixnum, 5⟩).ruby_type ≠ Ruby.data ∧
    (Value.mk 0 ⟨Ruby.fixnum, 5⟩).clone = some ⟨0, ⟨Ruby.fixnum, 5⟩⟩ :=
  ⟨rfl, (value_clone_panics_only_on_data _).1 rfl, by decide,
    (value_clone_panics_only_on_data _).2 (by decide)⟩

/-- Claim C10: when the argument count is within `MRB_FUNCALL_ARGC_MAX`, the
conversion of the argument count to the VM's signed integer type succeeds, so
the count the forwarded call receives equals the argument list length and the
`unwrap_or_default` fallback (count 0) is not taken. -/
theorem protect_run_argc_conversion_total (p : Protect)
    (h : p.args.length ≤ MRB_FUNCALL_ARGC_MAX) :
    intTryFrom p.args.length = some (p.args.length : Int) ∧
    (Protect.run p).2.argslen = (p.args.length : Int) := by
  have h16 : p.args.length ≤ 16 := h
  have hle : (p.args.length : Int) ≤ I64_MAX := by
    simp only [I64_MAX]
    omega
  have hconv : intTryFrom p.args.length = some (p.args.length : Int) := by
    simp [intTryFrom, hle]
  refine ⟨hconv, ?_⟩
  obtain ⟨slf, func_sym, args, block⟩ := p
  cases block <;> simp_all [Protect.run]

theorem protect_run_argc_conversion_total_witness :
    (Protect.new ⟨Ruby.string, 3⟩ 9 [⟨Ruby.fixnum, 1⟩]).args.length
      ≤ MRB_FUNCALL_ARGC_MAX ∧
    intTryFrom (Protect.new ⟨Ruby.string, 3⟩ 9 [⟨Ruby.fixnum, 1⟩]).args.length
      = some 1 ∧
    (Protect.run (Protect.new ⟨Ruby.string, 3⟩ 9 [⟨Ruby.fixnum, 1⟩])).2.argslen
      = 1 :=
  ⟨by decide,
    (protect_run_argc_conversion_total _ (by decide)).1,
    (protect_run_argc_conversion_total _ (by decide)).2⟩

theorem gv_set_hit (st : InterpState) (name : GlobalName) (v : RV) :
    (gv_set st name v).globals name = v := by
  simp [gv_set]

theorem gv_set_miss (st : InterpState) (name : GlobalName) (v : RV)
    (g : GlobalName) (h : g ≠ name) :
    (gv_set st name v).globals g = st.globals g := by
  simp [gv_set, h]

theorem captureSym_inj {i j : Nat} (h : captureSym i = captureSym j) : i = j := by
  by_cases hi : i = 0 <;> by_cases hj : j = 0 <;>
    simp_all [captureSym]

theorem captureSym_ne_lastMatch (i : Nat) :
    captureSym i ≠ GlobalName.lastMatch := by
  unfold captureSym
  split <;> simp

theorem captureSym_ne_preMatch (i : Nat) :
    captureSym i ≠ GlobalName.preMatch := by
  unfold captureSym
  split <;> simp

theorem captureSym_ne_postMatch (i : Nat) :
    captureSym i ≠ GlobalName.postMatch := by
  unfold captureSym
  split <;> simp

theorem setCaptureGlobals_globals_hit (caps : Captures) (st : InterpState)
    (n i : Nat) (h : i < n) :
    (setCaptureGlobals caps st n).globals (captureSym i) =
      convertOptStr (caps.atGroup i) := by
  induction n with
  | zero => omega
  | succ n ih =>
      unfold setCaptureGlobals at *
      rw [List.range_succ, List.foldl_append]
      simp only [List.foldl_cons, List.foldl_nil]
      by_cases hi : i = n
      · subst hi
        exact gv_set_hit ..
      · rw [gv_set_miss]
        · exact ih (by omega)
        · intro hc
          exact hi (captureSym_inj hc)

theorem setCaptureGlobals_globals_ne (caps : Captures) (st : InterpState)
    (n : Nat) (g : GlobalName) (h : ∀ j, j < n → g ≠ captureSym j) :
    (setCaptureGlobals caps st n).globals g = st.globals g := by
  induction n with
  | zero => rfl
  | succ n ih =>
      unfold setCaptureGlobals at *
      rw [List.range_succ, List.foldl_append]
      simp only [List.foldl_cons, List.foldl_nil]
      rw [gv_set_miss _ _ _ _ (h n (Nat.lt_succ_self n))]
      exact ih fun j hj => h j (Nat.lt_succ_of_lt hj)

theorem atGroup_out_of_range (caps : Captures) (i : Nat) (h : caps.len ≤ i) :
    convertOptStr (caps.atGroup i) = RV.nil := by
  have hg : caps.groups.get? i = none := List.get?_eq_none.mpr h
  simp only [Captures.atGroup, hg, Option.getD_none, convertOptStr]

/-- Claim C6: on every successful match with `k` captured groups, the method
sets capture globals for every index in `0..max(prev, k)` — index 0 to the
whole-match global, index `i ≥ 1` to the numbered global `$i`, indices at or
beyond `k` to nil — records `k` as the new high-water mark, and reports true. -/
theorem case_compare_match_sets_capture_globals (st : InterpState)
    (descriptor : Nat) (captures : String → Option Captures) (s : String)
    (caps : Captures) (he : captures s = some caps) :
    ∃ st2 : InterpState,
      method (some ⟨some (Backend.onig captures), descriptor⟩) ⟨some s⟩ st =
        some (Except.ok (RV.bool true, st2)) ∧
      (∀ i, i < max st.num_set_regexp_capture_globals caps.len →
        st2.globals (captureSym i) = convertOptStr (caps.atGroup i)) ∧
      (∀ i, caps.len ≤ i → i < max st.num_set_regexp_capture_globals caps.len →
        st2.globals (captureSym i) = RV.nil) ∧
      captureSym 0 = GlobalName.wholeMatch ∧
      (∀ i, 1 ≤ i → captureSym i = GlobalName.numbered i) ∧
      st2.num_set_regexp_capture_globals = caps.len := by
  cases hpos : caps.pos0 with
  | none =>
      have hm : method (some ⟨some (Backend.onig captures), descriptor⟩)
          ⟨some s⟩ st =
          some (Except.ok (RV.bool true,
            gv_set
              { setCaptureGlobals caps st
                  (max st.num_set_regexp_capture_globals caps.len) with
                num_set_regexp_capture_globals := caps.len }
              GlobalName.lastMatch
              (RV.matchdata (MatchData.new s descriptor 0 s.length)))) := by
        simp only [method, he, hpos]
        rfl
      refine ⟨_, hm, ?_, ?_, by simp [captureSym], ?_, rfl⟩
      · intro i hi
        rw [gv_set_miss _ _ _ _ (captureSym_ne_lastMatch i)]
        exact setCaptureGlobals_globals_hit caps st _ i hi
      · intro i hk hi
        rw [gv_set_miss _ _ _ _ (captureSym_ne_lastMatch i)]
        rw [show ({ setCaptureGlobals caps st
            (max st.num_set_regexp_capture_globals caps.len) with
            num_set_regexp_capture_globals := caps.len } : InterpState).globals =
          (setCaptureGlobals caps st
            (max st.num_set_regexp_capture_globals caps.len)).globals from rfl]
        rw [setCaptureGlobals_globals_hit caps st _ i hi]
        exact atGroup_out_of_range caps i hk
      · intro i hi
        have hne : i ≠ 0 := by omega
        simp [captureSym, hne]
  | some match_pos =>
      have hm : method (some ⟨some (Backend.onig captures), descriptor⟩)
          ⟨some s⟩ st =
          some (Except.ok (RV.bool true,
            gv_set
              (gv_set
                (gv_set
                  { setCaptureGlobals caps st
                      (max st.num_set_regexp_capture_globals caps.len) with
                    num_set_regexp_capture_globals := caps.len }
                  GlobalName.preMatch (RV.str (s.take match_pos.1)))
                GlobalName.postMatch (RV.str (s.drop match_pos.2)))
              GlobalName.lastMatch
              (RV.matchdata (MatchData.new s descriptor 0 s.length)))) := by
        simp only [method, he, hpos]
        rfl
      refine ⟨_, hm, ?_, ?_, by simp [captureSym], ?_, rfl⟩
      · intro i hi
        rw [gv_set_miss _ _ _ _ (captureSym_ne_lastMatch i)]
        rw [gv_set_miss _ _ _ _ (captureSym_ne_postMatch i)]
        rw [gv_set_miss _ _ _ _ (captureSym_ne_preMatch i)]
        exact setCaptureGlobals_globals_hit caps st _ i hi
      · intro i hk hi
        rw [gv_set_miss _ _ _ _ (captureSym_ne_lastMatch i)]
        rw [gv_set_miss _ _ _ _ (captureSym_ne_postMatch i)]
        rw [gv_set_miss _ _ _ _ (captureSym_ne_preMatch i)]
        rw [show ({ setCaptureGlobals caps st
            (max st.num_set_regexp_capture_globals caps.len) with
            num_set_regexp_capture_globals := caps.len } : InterpState).globals =
          (setCaptureGlobals caps st
            (max st.num_set_regexp_capture_globals caps.len)).globals from rfl]
        rw [setCaptureGlobals_globals_hit caps st _ i hi]
        exact atGroup_out_of_range caps i hk
      · intro i hi
        have hne : i ≠ 0 := by omega
        simp [captureSym, hne]

theorem case_compare_match_sets_capture_globals_witness :
    ((fun _ => some (⟨[some "ab", some "a"], some (0, 2)⟩ : Captures)) "ab" =
      some (⟨[some "ab", some "a"], some (0, 2)⟩ : Captures)) ∧
    ∃ st2 : InterpState,
      method (some ⟨some (Backend.onig
          (fun _ => some ⟨[some "ab", some "a"], some (0, 2)⟩)), 4⟩)
          ⟨some "ab"⟩ ⟨fun _ => RV.nil, 3⟩ =
        some (Except.ok (RV.bool true, st2)) ∧
      (∀ i, i < 3 →
        st2.globals (captureSym i) =
          convertOptStr
            ((⟨[some "ab", some "a"], some (0, 2)⟩ : Captures).atGroup i)) ∧
      (∀ i, 2 ≤ i → i < 3 → st2.globals (captureSym i) = RV.nil) ∧
      captureSym 0 = GlobalName.wholeMatch ∧
      (∀ i, 1 ≤ i → captureSym i = GlobalName.numbered i) ∧
      st2.num_set_regexp_capture_globals = 2 :=
  ⟨rfl,
    case_compare_match_sets_capture_globals ⟨fun _ => RV.nil, 3⟩ 4
      (fun _ => some ⟨[some "ab", some "a"], some (0, 2)⟩) "ab"
      ⟨[some "ab", some "a"], some (0, 2)⟩ rfl⟩

/-- Claim C7: on every candidate the pattern does not match, the method sets
the pre-match and post-match substring globals and the last-match global to
nil, reports false, leaves every other global untouched and leaves the
capture-global high-water mark unchanged. -/
theorem case_compare_no_match_clears (st : InterpState) (descriptor : Nat)
    (captures : String → Option Captures) (s : String)
    (he : captures s = none) :
    ∃ st2 : InterpState,
      method (some ⟨some (Backend.onig captures), descriptor⟩) ⟨some s⟩ st =
        some (Except.ok (RV.bool false, st2)) ∧
      st2.globals GlobalName.preMatch = RV.nil ∧
      st2.globals GlobalName.postMatch = RV.nil ∧
      st2.globals GlobalName.lastMatch = RV.nil ∧
      (∀ g, g ≠ GlobalName.preMatch → g ≠ GlobalName.postMatch →
        g ≠ GlobalName.lastMatch → st2.globals g = st.globals g) ∧
      st2.num_set_regexp_capture_globals
        = st.num_set_regexp_capture_globals := by
  have hm : method (some ⟨some (Backend.onig captures), descriptor⟩)
      ⟨some s⟩ st =
      some (Except.ok (RV.bool false,
        gv_set (gv_set (gv_set st GlobalName.preMatch RV.nil)
          GlobalName.postMatch RV.nil) GlobalName.lastMatch RV.nil)) := by
    simp only [method, he]
    rfl
  refine ⟨_, hm, ?_, ?_, gv_set_hit .., ?_, rfl⟩
  · rw [gv_set_miss _ _ _ _ (by simp), gv_set_miss _ _ _ _ (by simp)]
    exact gv_set_hit ..
  · rw [gv_set_miss _ _ _ _ (by simp)]
    exact gv_set_hit ..
  · intro g h1 h2 h3
    rw [gv_set_miss _ _ _ _ h3, gv_set_miss _ _ _ _ h2,
      gv_set_miss _ _ _ _ h1]

theorem case_compare_no_match_clears_witness :
    ((fun _ => (none : Option Captures)) "xyz" = none) ∧
    ∃ st2 : InterpState,
      method (some ⟨some (Backend.onig (fun _ => none)), 9⟩) ⟨some "xyz"⟩
          ⟨fun _ => RV.str "old", 5⟩ =
        some (Except.ok (RV.bool false, st2)) ∧
      st2.globals GlobalName.preMatch = RV.nil ∧
      st2.globals GlobalName.postMatch = RV.nil ∧
      st2.globals GlobalName.lastMatch = RV.nil ∧
      (∀ g, g ≠ GlobalName.preMatch → g ≠ GlobalName.postMatch →
        g ≠ GlobalName.lastMatch → st2.globals g = RV.str "old") ∧
      st2.num_set_regexp_capture_globals = 5 :=
  ⟨rfl,
    case_compare_no_match_clears ⟨fun _ => RV.str "old", 5⟩ 9 (fun _ => none)
      "xyz" rfl⟩

/-- Claim C8: with no candidate (nil argument), for every prior interpreter
state the method sets the last-match global to nil, reports false, and leaves
every other global and the capture-global high-water mark unchanged. -/
theorem case_compare_nil_candidate (r : Regexp) (st : InterpState) :
    ∃ st2 : InterpState,
      method (some r) ⟨none⟩ st = some (Except.ok (RV.bool false, st2)) ∧
      st2.globals GlobalName.lastMatch = RV.nil ∧
      (∀ g, g ≠ GlobalName.lastMatch → st2.globals g = st.globals g) ∧
      st2.num_set_regexp_capture_globals
        = st.num_set_regexp_capture_globals :=
  ⟨gv_set st GlobalName.lastMatch RV.nil, rfl, gv_set_hit ..,
    fun _ hg => gv_set_miss _ _ _ _ hg, rfl⟩

theorem case_compare_nil_candidate_witness :
    ∃ st2 : InterpState,
      method (some ⟨none, 0⟩) ⟨none⟩ ⟨fun _ => RV.str "w", 2⟩ =
        some (Except.ok (RV.bool false, st2)) ∧
      st2.globals GlobalName.lastMatch = RV.nil ∧
      (∀ g, g ≠ GlobalName.lastMatch → st2.globals g = RV.str "w") ∧
      st2.num_set_regexp_capture_globals = 2 :=
  case_compare_nil_candidate ⟨none, 0⟩ ⟨fun _ => RV.str "w", 2⟩

/-- Counterexample to claim C9 as stated: a concrete match whose group-0 span
is (1, 2) inside the candidate "abc", while the match-result object bound to
the last-match global records the region (0, 3) — the whole candidate — and
not the span of group 0. -/
theorem case_compare_region_counterexample :
    ((fun _ => some (⟨[some "b"], some (1, 2)⟩ : Captures)) "abc" =
      some (⟨[some "b"], some (1, 2)⟩ : Captures)) ∧
    (⟨[some "b"], some (1, 2)⟩ : Captures).pos0 = some (1, 2) ∧
    ∃ st2 : InterpState,
      method (some ⟨some (Backend.onig
          (fun _ => some ⟨[some "b"], some (1, 2)⟩)), 7⟩)
          ⟨some "abc"⟩ ⟨fun _ => RV.nil, 0⟩ =
        some (Except.ok (RV.bool true, st2)) ∧
      st2.globals GlobalName.lastMatch
        = RV.matchdata (MatchData.new "abc" 7 0 3) ∧
      st2.globals GlobalName.lastMatch
        ≠ RV.matchdata (MatchData.new "abc" 7 1 2) := by
  refine ⟨rfl, rfl, _, rfl, rfl, by decide⟩

/-- Claim C9, amended: for every successful match, the match-result object
bound to the last-match global owns a copy of the candidate text, holds the
pattern descriptor, and records the span of the whole candidate — offsets 0
to the candidate length — as its region (not the span of group 0). -/
theorem case_compare_matchdata_whole_candidate (st : InterpState)
    (descriptor : Nat) (captures : String → Option Captures) (s : String)
    (caps : Captures) (he : captures s = some caps) :
    ∃ st2 : InterpState,
      method (some ⟨some (Backend.onig captures), descriptor⟩) ⟨some s⟩ st =
        some (Except.ok (RV.bool true, st2)) ∧
      st2.globals GlobalName.lastMatch =
        RV.matchdata (MatchData.new s descriptor 0 s.length) ∧
      (MatchData.new s descriptor 0 s.length).string = s ∧
      (MatchData.new s descriptor 0 s.length).regexp = descriptor ∧
      (MatchData.new s descriptor 0 s.length).start_pos = 0 ∧
      (MatchData.new s descriptor 0 s.length).end_pos = s.length := by
  cases hpos : caps.pos0 with
  | none =>
      have hm : method (some ⟨some (Backend.onig captures), descriptor⟩)
          ⟨some s⟩ st =
          some (Except.ok (RV.bool true,
            gv_set
              { setCaptureGlobals caps st
                  (max st.num_set_regexp_capture_globals caps.len) with
                num_set_regexp_capture_globals := caps.len }
              GlobalName.lastMatch
              (RV.matchdata (MatchData.new s descriptor 0 s.length)))) := by
        simp only [method, he, hpos]
        rfl
      exact ⟨_, hm, gv_set_hit .., rfl, rfl, rfl, rfl⟩
  | some match_pos =>
      have hm : method (some ⟨some (Backend.onig captures), descriptor⟩)
          ⟨some s⟩ st =
          some (Except.ok (RV.bool true,
            gv_set
              (gv_set
                (gv_set
                  { setCaptureGlobals caps st
                      (max st.num_set_regexp_capture_globals caps.len) with
                    num_set_regexp_capture_globals := caps.len }
                  GlobalName.preMatch (RV.str (s.take match_pos.1)))
                GlobalName.postMatch (RV.str (s.drop match_pos.2)))
              GlobalName.lastMatch
              (RV.matchdata (MatchData.new s descriptor 0 s.length)))) := by
        simp only [method, he, hpos]
        rfl
      exact ⟨_, hm, gv_set_hit .., rfl, rfl, rfl, rfl⟩

theorem case_compare_matchdata_whole_candidate_witness :
    ((fun _ => some (⟨[some "bc", some "c"], some (1, 3)⟩ : Captures)) "abcd" =
      some (⟨[some "bc", some "c"], some (1, 3)⟩ : Captures)) ∧
    ∃ st2 : InterpState,
      method (some ⟨some (Backend.onig
          (fun _ => some ⟨[some "bc", some "c"], some (1, 3)⟩)), 11⟩)
          ⟨some "abcd"⟩ ⟨fun _ => RV.nil, 0⟩ =
        some (Except.ok (RV.bool true, st2)) ∧
      st2.globals GlobalName.lastMatch
        = RV.matchdata (MatchData.new "abcd" 11 0 4) ∧
      (MatchData.new "abcd" 11 0 4).string = "abcd" ∧
      (MatchData.new "abcd" 11 0 4).regexp = 11 ∧
      (MatchData.new "abcd" 11 0 4).start_pos = 0 ∧
      (MatchData.new "abcd" 11 0 4).end_pos = 4 :=
  ⟨rfl,
    case_compare_matchdata_whole_candidate ⟨fun _ => RV.nil, 0⟩ 11
      (fun _ => some ⟨[some "bc", some "c"], some (1, 3)⟩) "abcd"
      ⟨[some "bc", some "c"], some (1, 3)⟩ rfl⟩

end Artichoke
